import Mathlib

/-!
Verification development for the shared-memory-based handy communication
manager (irlab::shm). The C++ sources are shallowly embedded: machine
`uint64_t` values are `Nat` below `2^64`, with wrap-around subtraction made
explicit; the shared ring-buffer segment is a list of slot timestamps; local
(per-view) fields of `RingBuffer` are carried in a structure. Loops over the
slot array are embedded as structural recursions that mirror the source loops
index by index.
-/

namespace Shm

/-- `2^64`, the modulus of `uint64_t` arithmetic. -/
def U64MOD : Nat := 2 ^ 64

/-- `UINT64_MAX = 2^64 - 1`, the sentinel stored by `allocateBuffer` while a
slot is being written. -/
def U64MAX : Nat := 2 ^ 64 - 1

/-- `uint64_t` subtraction `a - b` (mod `2^64`), for `a b < 2^64`; this is the
exact value computed by `current_time_us - timestamp_us` in the C++ source. -/
def usub64 (a b : Nat) : Nat := (a + U64MOD - b) % U64MOD

/-- The `RingBuffer` view of a shared segment (`shm_base/src/ring_buffer.cpp`).
`timestamps` holds the shared `timestamp_list` (one `uint64_t` per slot, so
`*buf_num = timestamps.length`); `timestamp_us` and `data_expiry_time_us` are
the per-view local fields set by the constructor. -/
structure RingBuffer where
  timestamps : List Nat
  timestamp_us : Nat
  data_expiry_time_us : Nat
deriving DecidableEq, Repr

/-- `RingBuffer::RingBuffer`: every freshly constructed view starts with
`timestamp_us(0)` and `data_expiry_time_us(2000000)` (ring_buffer.cpp:98-101),
independent of the shared slot contents. -/
def RingBuffer.create (ts : List Nat) : RingBuffer :=
  { timestamps := ts, timestamp_us := 0, data_expiry_time_us := 2000000 }

/-- `RingBuffer::setDataExpiryTime_us` (ring_buffer.cpp:352-356). -/
def RingBuffer.setDataExpiryTime_us (rb : RingBuffer) (time_us : Nat) : RingBuffer :=
  { rb with data_expiry_time_us := time_us }

/-- The loop of `RingBuffer::getNewestBufferNum` (ring_buffer.cpp:225-234):
starting from `timestamp_buf = 0`, `found = false`, each slot `i` updates the
accumulator when `ts[i] != UINT64_MAX && ts[i] > 0 && ts[i] >= timestamp_buf`.
The accumulator is `(timestamp_buf, newest_buffer?)` with `none` for
`found_valid_timestamp == false`. -/
def newestLoop : List Nat → Nat → Nat × Option Nat → Nat × Option Nat
  | [], _, acc => acc
  | t :: rest, i, acc =>
      newestLoop rest (i + 1)
        (if t ≠ U64MAX ∧ 0 < t ∧ acc.1 ≤ t then (t, some i) else acc)

/-- The full scan of `getNewestBufferNum` over the slot array. -/
def newestScan (ts : List Nat) : Nat × Option Nat :=
  newestLoop ts 0 (0, none)

/-- `RingBuffer::getNewestBufferNum` (ring_buffer.cpp:218-252). `now` is the
value read from `CLOCK_MONOTONIC_RAW`. Returns the C++ `int` result and the
updated view (the local `timestamp_us` is assigned the found maximum before
the expiry test). The expiry test is the source's
`current_time_us - timestamp_us < data_expiry_time_us` on `uint64_t`. -/
def RingBuffer.getNewestBufferNum (now : Nat) (rb : RingBuffer) : Int × RingBuffer :=
  match newestScan rb.timestamps with
  | (_, none) => (-1, rb)
  | (tbuf, some idx) =>
      if usub64 now tbuf < rb.data_expiry_time_us then
        ((idx : Int), { rb with timestamp_us := tbuf })
      else
        (-1, { rb with timestamp_us := tbuf })

/-- The loop of `RingBuffer::getOldestBufferNum` (ring_buffer.cpp:263-270):
plain `uint64_t` comparison `timestamp_list[i] < timestamp_buf`, accumulator
`(timestamp_buf, oldest_buffer)`. -/
def oldestLoop : List Nat → Nat → Nat × Nat → Nat × Nat
  | [], _, acc => acc
  | t :: rest, i, acc =>
      oldestLoop rest (i + 1) (if t < acc.1 then (t, i) else acc)

/-- The full scan of `getOldestBufferNum`: the accumulator starts at
`(timestamp_list[0], 0)` and the loop revisits index 0 (a no-op, as in the
source where `ts[0] < ts[0]` is false). -/
def oldestScan (ts : List Nat) : Nat × Nat :=
  oldestLoop ts 0 (ts.headD 0, 0)

/-- `RingBuffer::getOldestBufferNum` (ring_buffer.cpp:254-274). Returns the
chosen slot index (a `size_t` in the source) and the updated view; the local
`timestamp_us` ends up holding the minimum found (the transient
`timestamp_us = UINT64_MAX` write for `timestamp_us == 0` is overwritten
unconditionally at line 272). -/
def RingBuffer.getOldestBufferNum (rb : RingBuffer) : Nat × RingBuffer :=
  match oldestScan rb.timestamps with
  | (tbuf, oldest) => (oldest, { rb with timestamp_us := tbuf })

/-- `RingBuffer::allocateBuffer` (ring_buffer.cpp:276-291). `i` is the C++
`int` argument; out-of-range indices (negative, or `>= *buf_num`) fail with no
write; otherwise the slot is read and, unless it already holds `UINT64_MAX`,
compare-exchanged to `UINT64_MAX` (in this single-writer embedding the CAS
succeeds: the slot value is unchanged between the load and the exchange). -/
def RingBuffer.allocateBuffer (rb : RingBuffer) (i : Int) : Bool × RingBuffer :=
  if i < 0 ∨ (rb.timestamps.length : Int) ≤ i then
    (false, rb)
  else if rb.timestamps.getD i.toNat 0 = U64MAX then
    (false, rb)
  else
    (true, { rb with timestamps := rb.timestamps.set i.toNat U64MAX })

/-- The ordering key asserted by the specification for the oldest-slot scan:
"Slots with timestamp 0 or `UINT64_MAX` compare less than any valid
timestamp". Stated from the spec's words (not from the code) so the two can
be compared: timestamps 0 and `UINT64_MAX` are mapped below every valid
timestamp. -/
def claimOldestKey (t : Nat) : Nat :=
  if t = 0 ∨ t = U64MAX then 0 else t

/-- The slot index prescribed by the specification's wording for
`getOldestBufferNum`: the strictly minimal slot under `claimOldestKey`
ordering, ties broken by the lowest index. -/
def claimOldestIndex (ts : List Nat) : Nat :=
  (oldestScan (ts.map claimOldestKey)).2

/-- The three header words of a ring-buffer segment that publisher-side code
writes: `initialization_flag`, `*element_size` and `*buf_num`
(ring_buffer.cpp:121-158). -/
structure SegHeader where
  init_flag : Nat
  element_size : Nat
  buf_num : Nat
deriving DecidableEq, Repr

/-- The header writes of `RingBuffer::RingBuffer(first_ptr, size, buffer_num)`
(ring_buffer.cpp:98-164): when `buffer_num != 0` the constructor stores
`*element_size = size`, `*buf_num = buffer_num`, clears the flag, zeroes the
timestamps and finally stores `INITIALIZED` (= 1); when `buffer_num == 0`
(the reader path) it only sets up pointers and writes nothing. Note that the
`size != 0` test at line 106 only selects how the layout is computed; the
writes at lines 131-157 are guarded by `buffer_num != 0` alone, so `size = 0`
is stored verbatim. -/
def ringBufferCtorHeader (hdr : SegHeader) (size : Nat) (buffer_num : Nat) : SegHeader :=
  if buffer_num ≠ 0 then
    { init_flag := 1, element_size := size, buf_num := buffer_num }
  else
    hdr

/-- Header effect of `Publisher<T>::Publisher(name, buffer_num, perm)` for a
fixed-size `T` (shm_pub_sub.hpp:139-203): it constructs
`RingBuffer(ptr, sizeof(T), buffer_num)`.  `sizeofT` stands for `sizeof(T)`,
which in C++ is at least 1. -/
def publisherFixedCtorHeader (hdr : SegHeader) (sizeofT : Nat) (buffer_num : Nat) : SegHeader :=
  ringBufferCtorHeader hdr sizeofT buffer_num

/-- Header effect of `Publisher<std::vector<T>>::Publisher`
(shm_pub_sub_vector.hpp:103-120): the member `vector_size` is initialized to
`0` and the constructor runs `RingBuffer(ptr, vector_size, buffer_num)`,
i.e. the element size written into the segment is `0`. -/
def publisherVectorCtorHeader (hdr : SegHeader) (buffer_num : Nat) : SegHeader :=
  ringBufferCtorHeader hdr 0 buffer_num

/-- A publisher-side header-writing operation: construction of a fixed-size
`Publisher<T>` (with `sizeofT = sizeof(T)`), or construction of a
`Publisher<std::vector<T>>`. -/
inductive PubOp where
  | fixed (sizeofT : Nat) (buffer_num : Nat)
  | vec (buffer_num : Nat)
deriving DecidableEq, Repr

/-- Apply one publisher-side operation to the segment header. -/
def applyPubOp (hdr : SegHeader) : PubOp → SegHeader
  | .fixed s n => publisherFixedCtorHeader hdr s n
  | .vec n => publisherVectorCtorHeader hdr n

/-- Run a sequence of publisher-side operations on the segment header. -/
def runPubOps (hdr : SegHeader) (ops : List PubOp) : SegHeader :=
  ops.foldl applyPubOp hdr

/-- Holds of an operation that writes a positive element size: a fixed-size
publisher construction (where `sizeof(T) ≥ 1`). A vector-publisher
construction writes element size 0. -/
def PubOp.writesPosElemSize : PubOp → Prop
  | .fixed s _ => 0 < s
  | .vec _ => False

/-! ### Shared-memory object names (`shm_base/src/shared_memory.cpp`) -/

/-- `if (name[0] == '/') name = name.erase(0, 1);` — used both by the
`SharedMemoryPosix` constructor (shared_memory.cpp:56-59) and by
`disconnectMemory` (shared_memory.cpp:23-26). For the empty string, `name[0]`
is the null character (C++11), which is not `'/'`. -/
def stripLeadingSlash (s : String) : String :=
  match s.data with
  | [] => s
  | c :: rest => if c = '/' then String.mk rest else s

/-- `regex_replace(name, std::regex("/"), "_")`: replace every `'/'` by
`'_'`. -/
def replaceSlashes (s : String) : String :=
  String.mk (s.data.map (fun c => if c = '/' then '_' else c))

/-- `"/shm_" + regex_replace(shm_name, regex("/"), "_")` — the `str_buf`
built from the stored `shm_name` by `SharedMemoryPosix::connect`
(shared_memory.cpp:73) and by `SharedMemoryPosix::isExists`
(shared_memory.cpp:189). -/
def shmObjectNameOfStored (shm_name : String) : String :=
  "/shm_" ++ replaceSlashes shm_name

/-- The host shared-memory object name that `connect` (and the `isExists`
probe) uses for a logical name: the constructor strips one leading `'/'` into
the stored `shm_name`, and `connect` prepends `"/shm_"` after replacing the
remaining `'/'`. -/
def connectObjectName (name : String) : String :=
  shmObjectNameOfStored (stripLeadingSlash name)

/-- The object name unlinked by `disconnectMemory(name)`
(shared_memory.cpp:20-29): strip one leading `'/'`, replace `'/'` by `'_'`,
prepend `"/shm_"`. -/
def disconnectMemoryObjectName (name : String) : String :=
  shmObjectNameOfStored (stripLeadingSlash name)

/-- The canonicalization rule exactly as the specification words it: "strip a
single leading `/`, replace all `/` with `_`, prepend `/shm_`". Stated
separately from the code-derived names so the two can be compared. -/
def specCanonicalName (name : String) : String :=
  "/shm_" ++ replaceSlashes (stripLeadingSlash name)

/-! ### Service protocol (`shm_service/include/shm_service.hpp`) -/

/-- The shared service segment: request timestamp and value, response
timestamp and value (shm_service.hpp:130-146, ignoring the pthread
primitives). Timestamps are microsecond clock readings. -/
structure SvcShared (Req Res : Type) where
  request_timestamp_usec : Nat
  request_val : Req
  response_timestamp_usec : Nat
  response_val : Res
deriving DecidableEq, Repr

/-- Server-local state: `current_request_timestamp_usec`
(shm_service.hpp:68). -/
structure ServerLocal where
  current_request_timestamp_usec : Nat
deriving DecidableEq, Repr

/-- Client-local state: `current_response_timestamp_usec`
(shm_service.hpp:102). -/
structure ClientLocal where
  current_response_timestamp_usec : Nat
deriving DecidableEq, Repr

/-- One iteration of `ServiceServer::loop` (shm_service.hpp:206-253) that has
woken up at clock time `now`: if a request newer than the server's recorded
timestamp is present, the server records that timestamp, computes
`func(request)` and publishes it with a fresh response timestamp; otherwise it
keeps waiting (no change). -/
def serverLoopStep {Req Res : Type} (f : Req → Res) (now : Nat)
    (st : SvcShared Req Res × ServerLocal) : SvcShared Req Res × ServerLocal :=
  if st.2.current_request_timestamp_usec < st.1.request_timestamp_usec then
    ({ st.1 with
        response_val := f st.1.request_val
        response_timestamp_usec := now },
     { current_request_timestamp_usec := st.1.request_timestamp_usec })
  else
    st

/-- Run the server loop over a list of wake-up times. -/
def runServer {Req Res : Type} (f : Req → Res) (times : List Nat)
    (st : SvcShared Req Res × ServerLocal) : SvcShared Req Res × ServerLocal :=
  times.foldl (fun acc now => serverLoopStep f now acc) st

/-- The request-writing phase of `ServiceClient::call`
(shm_service.hpp:318-322): `*request_ptr = request;
*request_timestamp_usec = getCurrentTimeUSec();`. -/
def writeRequest {Req Res : Type} (r : Req) (now : Nat)
    (sh : SvcShared Req Res) : SvcShared Req Res :=
  { sh with request_val := r, request_timestamp_usec := now }

/-- The observation that ends the wait loop of `ServiceClient::call`
(shm_service.hpp:328-350): if the shared response timestamp has advanced past
the client's recorded baseline, the client records it and copies the shared
response out (returning `true`); on deadline the loop returns `false` without
touching `*response` (modelled by returning the prior out-parameter value
`out`). -/
def observeResponse {Req Res : Type} (cl : ClientLocal) (out : Res)
    (sh : SvcShared Req Res) : Bool × Res × ClientLocal :=
  if cl.current_response_timestamp_usec < sh.response_timestamp_usec then
    (true, sh.response_val, { current_response_timestamp_usec := sh.response_timestamp_usec })
  else
    (false, out, cl)

/-- `ServiceClient::call(request, response, timeout)` against a server, as one
interleaving: the client writes its request at time `now`; the server loop
then runs at the wake-up times in `serverTimes`; finally the client's wait
loop either observes a response-timestamp advance (success) or hits its
deadline (failure). `out` is the value `*response` held before the call. -/
def clientCall {Req Res : Type} (f : Req → Res) (r : Req) (now : Nat)
    (serverTimes : List Nat) (sh : SvcShared Req Res) (sv : ServerLocal)
    (cl : ClientLocal) (out : Res) : Bool × Res × ClientLocal :=
  observeResponse cl out (runServer f serverTimes (writeRequest r now sh, sv)).1

/-! ### Action protocol (`shm_action/include/shm_action.hpp`) -/

/-- `ACTION_STATUS` (shm_action.hpp:26-32). -/
inductive ActionStatus where
  | ACTIVE
  | REJECTED
  | SUCCEEDED
  | PREEMPTED
deriving DecidableEq, Repr

/-- The action segment together with the server-local fields that the claimed
properties mention: shared `goal_timestamp_us`, `cancel_timestamp_us`,
`result_timestamp_us`, `status` and goal value, plus the server's local
`start_timestamp_us` and `current_goal_timestamp_usec`
(shm_action.hpp:73-89). -/
structure ActionState (Goal : Type) where
  goal_timestamp_us : Nat
  cancel_timestamp_us : Nat
  result_timestamp_us : Nat
  status : ActionStatus
  goal : Goal
  start_timestamp_us : Nat
  current_goal_timestamp_usec : Nat
deriving DecidableEq, Repr

/-- `ActionServer::isPreemptRequested` (shm_action.hpp:272-281): returns true
exactly when `start_timestamp_us < *cancel_timestamp_us`. -/
def ActionState.isPreemptRequested {G : Type} (s : ActionState G) : Bool :=
  if s.start_timestamp_us < s.cancel_timestamp_us then true else false

/-- `ActionServer::acceptNewGoal` (shm_action.hpp:250-261), run at clock time
`now`: sets the status to `ACTIVE`, restamps the server-local
`start_timestamp_us` with the current clock, records the goal timestamp, and
returns `*goal_ptr`. -/
def ActionState.acceptNewGoal {G : Type} (now : Nat) (s : ActionState G) :
    G × ActionState G :=
  (s.goal,
   { s with
      status := .ACTIVE
      start_timestamp_us := now
      current_goal_timestamp_usec := s.goal_timestamp_us })

/-- `ActionClient::cancelGoal` (shm_action.hpp:424-431), run at clock time
`now`: stores the current clock into the shared `*cancel_timestamp_us`. -/
def ActionState.cancelGoal {G : Type} (now : Nat) (s : ActionState G) : ActionState G :=
  { s with cancel_timestamp_us := now }

/-! ### Typed subscriber (`shm_pub_sub/include/shm_pub_sub.hpp`) -/

/-- A publishing segment as the typed subscriber sees it: slot timestamps and
the payload stored in each slot's data area. -/
structure Segment (α : Type) where
  timestamps : List Nat
  data : List α
deriving DecidableEq, Repr

/-- The `Subscriber<T>` fields relevant to `subscribe`
(shm_pub_sub.hpp:113-119): whether the shared memory is connected with a live
`RingBuffer` view (`attached`), `current_reading_buffer`, the view's local
`timestamp_us`, and the configured `data_expiry_time_us`. -/
structure SubscriberLocal where
  attached : Bool
  current_reading_buffer : Nat
  rb_timestamp_us : Nat
  data_expiry_time_us : Nat
deriving DecidableEq, Repr

/-- `Subscriber<T>::Subscriber` (shm_pub_sub.hpp:263-301): does not connect,
starts with `current_reading_buffer(0)` and `data_expiry_time_us(2000000)`. -/
def mkSubscriber : SubscriberLocal :=
  { attached := false, current_reading_buffer := 0, rb_timestamp_us := 0
    data_expiry_time_us := 2000000 }

/-- The read phase of `Subscriber<T>::subscribe` (shm_pub_sub.hpp:348-390),
run against segment `seg` with an attached ring-buffer view:
`getNewestBufferNum` picks a slot; a negative result returns the payload at
`current_reading_buffer` with `*is_success = false`; otherwise the newest
slot's payload is returned with `*is_success = true` and
`current_reading_buffer` updated. -/
def subscribeRead {α : Type} [Inhabited α] (seg : Segment α) (sub : SubscriberLocal)
    (now : Nat) : α × Bool × SubscriberLocal :=
  let rb : RingBuffer :=
    { timestamps := seg.timestamps, timestamp_us := sub.rb_timestamp_us
      data_expiry_time_us := sub.data_expiry_time_us }
  match rb.getNewestBufferNum now with
  | (idx, rb2) =>
      if idx < 0 then
        (seg.data.getD sub.current_reading_buffer default, false,
         { sub with rb_timestamp_us := rb2.timestamp_us })
      else
        (seg.data.getD idx.toNat default, true,
         { sub with
            current_reading_buffer := idx.toNat
            rb_timestamp_us := rb2.timestamp_us })

/-- `Subscriber<T>::subscribe` (shm_pub_sub.hpp:313-390). When the segment is
not attached, the subscriber reconnects (`connectOk` stands for the outcome of
`connect`/`getPtr`, `initOk` for `waitForInitialization` within its 500 ms
wait); a failed attach returns a default-constructed `T()` with
`*is_success = false`.  A successful attach builds a fresh `RingBuffer` view
(`timestamp_us = 0`) carrying the subscriber's configured expiry, and falls
through to the read phase. -/
def subscribe {α : Type} [Inhabited α] (seg : Segment α) (sub : SubscriberLocal)
    (connectOk initOk : Bool) (now : Nat) : α × Bool × SubscriberLocal :=
  if sub.attached then
    subscribeRead seg sub now
  else if connectOk = false then
    (default, false, sub)
  else if initOk = false then
    (default, false, sub)
  else
    subscribeRead seg { sub with attached := true, rb_timestamp_us := 0 } now

/-! ## Helper lemmas -/

lemma getD_set_self (l : List Nat) (n v : Nat) (h : n < l.length) :
    (l.set n v).getD n 0 = v := by
  induction l generalizing n with
  | nil => simp at h
  | cons a t ih =>
      cases n with
      | zero => simp
      | succ m =>
          simp only [List.set_cons_succ, List.getD_cons_succ]
          exact ih m (by simpa using h)

lemma getD_set_ne (l : List Nat) (n j v : Nat) (h : j ≠ n) :
    (l.set n v).getD j 0 = l.getD j 0 := by
  induction l generalizing n j with
  | nil => simp
  | cons a t ih =>
      cases n with
      | zero =>
          cases j with
          | zero => exact absurd rfl h
          | succ m => simp
      | succ m =>
          cases j with
          | zero => simp
          | succ k =>
              simp only [List.set_cons_succ, List.getD_cons_succ]
              exact ih m k (fun hk => h (by rw [hk]))

lemma getD_mem (l : List Nat) (j : Nat) (h : j < l.length) :
    l.getD j 0 ∈ l := by
  induction l generalizing j with
  | nil => simp at h
  | cons a t ih =>
      cases j with
      | zero => simp
      | succ m =>
          simp only [List.getD_cons_succ]
          exact List.mem_cons_of_mem a (ih m (by simpa using h))

/-- Invariant of the `getOldestBufferNum` loop: starting at absolute index `i`
with accumulator `acc`, the loop either leaves `acc` unchanged (every scanned
timestamp being at least `acc.1`), or ends at the first position `j` of the
remaining list whose value is below `acc.1` and minimal among the remaining
values. -/
lemma oldestLoop_spec (l : List Nat) (i : Nat) (acc : Nat × Nat) :
    (oldestLoop l i acc = acc ∧ ∀ t ∈ l, acc.1 ≤ t) ∨
    (∃ j, j < l.length ∧ oldestLoop l i acc = (l.getD j 0, i + j) ∧
      l.getD j 0 < acc.1 ∧
      (∀ k, k < j → l.getD j 0 < l.getD k 0) ∧
      (∀ k, k < l.length → l.getD j 0 ≤ l.getD k 0)) := by
  induction l generalizing i acc with
  | nil =>
      left
      exact ⟨rfl, fun t ht => absurd ht (List.not_mem_nil t)⟩
  | cons t rest ih =>
      by_cases hlt : t < acc.1
      · rcases ih (i + 1) (t, i) with ⟨heq, hall⟩ | ⟨j, hj, heq, hlt2, hmin1, hmin2⟩
        · right
          refine ⟨0, by simp, ?_, by simpa using hlt, ?_, ?_⟩
          · simpa [oldestLoop, hlt] using heq
          · intro k hk
            exact absurd hk (Nat.not_lt_zero k)
          · intro k hk
            cases k with
            | zero => simp
            | succ m =>
                simp only [List.getD_cons_zero, List.getD_cons_succ]
                exact hall _ (getD_mem rest m (by simpa using hk))
        · right
          have hlt2t : rest.getD j 0 < t := hlt2
          refine ⟨j + 1, by simpa using hj, ?_, ?_, ?_, ?_⟩
          · simp only [oldestLoop, if_pos hlt]
            rw [heq]
            simp only [List.getD_cons_succ]
            have harith : i + 1 + j = i + (j + 1) := by omega
            rw [harith]
          · simp only [List.getD_cons_succ]
            exact lt_trans hlt2t hlt
          · intro k hk
            cases k with
            | zero =>
                simp only [List.getD_cons_succ, List.getD_cons_zero]
                exact hlt2t
            | succ m =>
                simp only [List.getD_cons_succ]
                exact hmin1 m (by omega)
          · intro k hk
            cases k with
            | zero =>
                simp only [List.getD_cons_succ, List.getD_cons_zero]
                exact le_of_lt hlt2t
            | succ m =>
                simp only [List.getD_cons_succ]
                exact hmin2 m (by simpa using hk)
      · rcases ih (i + 1) acc with ⟨heq, hall⟩ | ⟨j, hj, heq, hlt2, hmin1, hmin2⟩
        · left
          refine ⟨by simpa [oldestLoop, hlt] using heq, ?_⟩
          intro u hu
          rcases List.mem_cons.mp hu with rfl | hu
          · exact le_of_not_lt hlt
          · exact hall u hu
        · right
          refine ⟨j + 1, by simpa using hj, ?_, ?_, ?_, ?_⟩
          · simp only [oldestLoop, if_neg hlt]
            rw [heq]
            simp only [List.getD_cons_succ]
            have harith : i + 1 + j = i + (j + 1) := by omega
            rw [harith]
          · simp only [List.getD_cons_succ]
            exact hlt2
          · intro k hk
            cases k with
            | zero =>
                simp only [List.getD_cons_succ, List.getD_cons_zero]
                exact lt_of_lt_of_le hlt2 (le_of_not_lt hlt)
            | succ m =>
                simp only [List.getD_cons_succ]
                exact hmin1 m (by omega)
          · intro k hk
            cases k with
            | zero =>
                simp only [List.getD_cons_succ, List.getD_cons_zero]
                exact le_trans (le_of_lt hlt2) (le_of_not_lt hlt)
            | succ m =>
                simp only [List.getD_cons_succ]
                exact hmin2 m (by simpa using hk)

/-- Invariant of the `getNewestBufferNum` loop: the accumulator either comes
out unchanged, or holds the value and absolute index of some slot of the
scanned list whose timestamp is valid (neither `0` nor `UINT64_MAX`). -/
lemma newestLoop_cases (l : List Nat) (i : Nat) (acc : Nat × Option Nat) :
    newestLoop l i acc = acc ∨
    (∃ j, j < l.length ∧ newestLoop l i acc = (l.getD j 0, some (i + j)) ∧
      l.getD j 0 ≠ U64MAX ∧ 0 < l.getD j 0) := by
  induction l generalizing i acc with
  | nil => exact Or.inl rfl
  | cons t rest ih =>
      by_cases hc : t ≠ U64MAX ∧ 0 < t ∧ acc.1 ≤ t
      · rcases ih (i + 1) (t, some i) with heq | ⟨j, hj, heq, hvalid, hpos⟩
        · right
          refine ⟨0, by simp, ?_, by simpa using hc.1, by simpa using hc.2.1⟩
          simpa [newestLoop, hc] using heq
        · right
          refine ⟨j + 1, by simpa using hj, ?_, by simpa using hvalid,
            by simpa using hpos⟩
          simp only [newestLoop, if_pos hc]
          rw [heq]
          simp only [List.getD_cons_succ]
          have harith : i + 1 + j = i + (j + 1) := by omega
          rw [harith]
      · rcases ih (i + 1) acc with heq | ⟨j, hj, heq, hvalid, hpos⟩
        · left
          simpa [newestLoop, hc] using heq
        · right
          refine ⟨j + 1, by simpa using hj, ?_, by simpa using hvalid,
            by simpa using hpos⟩
          simp only [newestLoop, if_neg hc]
          rw [heq]
          simp only [List.getD_cons_succ]
          have harith : i + 1 + j = i + (j + 1) := by omega
          rw [harith]

/-- Running the server loop never touches the request slot, and the response
slot either stays exactly as it was or ends up holding `f` applied to the
(unchanging) request value. -/
lemma runServer_inv {Req Res : Type} (f : Req → Res) (times : List Nat)
    (sh : SvcShared Req Res) (sv : ServerLocal) :
    (runServer f times (sh, sv)).1.request_val = sh.request_val ∧
    (runServer f times (sh, sv)).1.request_timestamp_usec = sh.request_timestamp_usec ∧
    (((runServer f times (sh, sv)).1.response_timestamp_usec = sh.response_timestamp_usec ∧
      (runServer f times (sh, sv)).1.response_val = sh.response_val) ∨
     (runServer f times (sh, sv)).1.response_val = f sh.request_val) := by
  induction times generalizing sh sv with
  | nil => exact ⟨rfl, rfl, Or.inl ⟨rfl, rfl⟩⟩
  | cons now rest ih =>
      have hstep : runServer f (now :: rest) (sh, sv)
          = runServer f rest (serverLoopStep f now (sh, sv)) := rfl
      by_cases hc : sv.current_request_timestamp_usec < sh.request_timestamp_usec
      · have hfire : serverLoopStep f now (sh, sv)
            = ({ sh with response_val := f sh.request_val, response_timestamp_usec := now },
               { current_request_timestamp_usec := sh.request_timestamp_usec }) := by
          simp [serverLoopStep, hc]
        rw [hstep, hfire]
        rcases ih { sh with response_val := f sh.request_val, response_timestamp_usec := now }
            { current_request_timestamp_usec := sh.request_timestamp_usec } with
          ⟨h1, h2, h3⟩
        refine ⟨h1, h2, Or.inr ?_⟩
        rcases h3 with ⟨_, hval⟩ | hval
        · rw [hval]
        · rw [hval]
      · have hskip : serverLoopStep f now (sh, sv) = (sh, sv) := by
          simp [serverLoopStep, hc]
        rw [hstep, hskip]
        exact ih sh sv

/-- The full oldest-slot scan returns the lowest index attaining the minimum
timestamp under plain `uint64_t` comparison. -/
lemma oldestScan_spec (ts : List Nat) (h : ts ≠ []) :
    (oldestScan ts).2 < ts.length ∧
    (∀ k, k < ts.length → ts.getD (oldestScan ts).2 0 ≤ ts.getD k 0) ∧
    (∀ k, k < (oldestScan ts).2 → ts.getD (oldestScan ts).2 0 < ts.getD k 0) := by
  cases ts with
  | nil => exact absurd rfl h
  | cons t rest =>
      rcases oldestLoop_spec (t :: rest) 0 (t, 0) with ⟨heq, hall⟩ |
        ⟨j, hj, heq, _, hmin1, hmin2⟩
      · have hscan : oldestScan (t :: rest) = (t, 0) := heq
        rw [hscan]
        refine ⟨by simp, ?_, ?_⟩
        · intro k hk
          have hm := hall _ (getD_mem (t :: rest) k hk)
          simpa using hm
        · intro k hk
          exact absurd hk (Nat.not_lt_zero k)
      · have hscan : oldestScan (t :: rest) = ((t :: rest).getD j 0, j) := by
          rw [show oldestScan (t :: rest) = oldestLoop (t :: rest) 0 (t, 0) from rfl, heq]
          rw [Nat.zero_add]
        rw [hscan]
        exact ⟨hj, hmin2, hmin1⟩

/-- The `RingBuffer` constructor's header writes preserve
"initialized implies a positive slot count": when it writes at all
(`buffer_num ≠ 0`) it stores that nonzero count. -/
lemma ringBufferCtorHeader_buf (hdr : SegHeader) (s n : Nat)
    (hb : hdr.init_flag = 1 → 0 < hdr.buf_num) :
    (ringBufferCtorHeader hdr s n).init_flag = 1 →
      0 < (ringBufferCtorHeader hdr s n).buf_num := by
  by_cases hn : n ≠ 0
  · intro _
    simp only [ringBufferCtorHeader, if_pos hn]
    omega
  · simpa only [ringBufferCtorHeader, if_neg hn] using hb

/-- The `RingBuffer` constructor's header writes preserve
"initialized implies a positive element size" whenever the size being written
is positive. -/
lemma ringBufferCtorHeader_elem (hdr : SegHeader) (s n : Nat) (hs : 0 < s)
    (he : hdr.init_flag = 1 → 0 < hdr.element_size) :
    (ringBufferCtorHeader hdr s n).init_flag = 1 →
      0 < (ringBufferCtorHeader hdr s n).element_size := by
  by_cases hn : n ≠ 0
  · intro _
    simpa only [ringBufferCtorHeader, if_pos hn] using hs
  · simpa only [ringBufferCtorHeader, if_neg hn] using he

/-- Any sequence of publisher-side constructions preserves
"initialized implies a positive slot count". -/
lemma runPubOps_buf_pos (ops : List PubOp) (hdr : SegHeader)
    (hb : hdr.init_flag = 1 → 0 < hdr.buf_num) :
    (runPubOps hdr ops).init_flag = 1 → 0 < (runPubOps hdr ops).buf_num := by
  induction ops generalizing hdr with
  | nil => exact hb
  | cons op rest ih =>
      refine ih (applyPubOp hdr op) ?_
      cases op with
      | fixed s n => exact ringBufferCtorHeader_buf hdr s n hb
      | vec n => exact ringBufferCtorHeader_buf hdr 0 n hb

/-- A sequence of publisher-side constructions that all write a positive
element size preserves "initialized implies a positive element size". -/
lemma runPubOps_elem_pos (ops : List PubOp) (hdr : SegHeader)
    (hall : ∀ op ∈ ops, op.writesPosElemSize)
    (he : hdr.init_flag = 1 → 0 < hdr.element_size) :
    (runPubOps hdr ops).init_flag = 1 → 0 < (runPubOps hdr ops).element_size := by
  induction ops generalizing hdr with
  | nil => exact he
  | cons op rest ih =>
      refine ih (applyPubOp hdr op) (fun o ho => hall o (List.mem_cons_of_mem _ ho)) ?_
      cases op with
      | fixed s n =>
          exact ringBufferCtorHeader_elem hdr s n (hall _ (List.mem_cons_self _ _)) he
      | vec n => exact (hall _ (List.mem_cons_self _ _)).elim

/-! ## Claims -/

/-- C1, counterexample. The specification orders `UINT64_MAX` below every
valid timestamp, so for the slot array `[5, UINT64_MAX]` it prescribes slot 1
as the strict minimum; the code compares raw `uint64_t` values and returns
slot 0, treating the `UINT64_MAX` slot as newest. -/
theorem getOldest_claimed_order_counterexample :
    (RingBuffer.getOldestBufferNum ⟨[5, U64MAX], 0, 2000000⟩).1 = 0 ∧
    claimOldestIndex [5, U64MAX] = 1 ∧
    (RingBuffer.getOldestBufferNum ⟨[5, U64MAX], 0, 2000000⟩).1 ≠
      claimOldestIndex [5, U64MAX] := by
  decide

/-- C1, amended. For every ring buffer with at least one slot,
`getOldestBufferNum` returns the lowest index among the slots whose timestamp
is minimum under plain `uint64_t` comparison (so `UINT64_MAX` compares greater
than every valid timestamp, not less). -/
theorem getOldest_min_lowest_index (rb : RingBuffer) (h : rb.timestamps ≠ []) :
    rb.getOldestBufferNum.1 < rb.timestamps.length ∧
    (∀ k, k < rb.timestamps.length →
      rb.timestamps.getD rb.getOldestBufferNum.1 0 ≤ rb.timestamps.getD k 0) ∧
    (∀ k, k < rb.getOldestBufferNum.1 →
      rb.timestamps.getD rb.getOldestBufferNum.1 0 < rb.timestamps.getD k 0) := by
  have hidx : rb.getOldestBufferNum.1 = (oldestScan rb.timestamps).2 := rfl
  rw [hidx]
  exact oldestScan_spec rb.timestamps h

/-- Witness for C1's amended theorem at the slot array `[5, UINT64_MAX]`. -/
theorem getOldest_min_lowest_index_witness :
    (RingBuffer.getOldestBufferNum ⟨[5, U64MAX], 0, 2000000⟩).1
      < ([5, U64MAX] : List Nat).length :=
  (getOldest_min_lowest_index ⟨[5, U64MAX], 0, 2000000⟩ (by simp)).1

/-- C3. Setting the data-expiry time to 0 does not disable the staleness
check: it makes `getNewestBufferNum` return `-1` for every buffer and every
clock value, because the `uint64_t` test
`current_time_us - timestamp_us < data_expiry_time_us` can never hold with a
zero right-hand side. (The repository's C port documents expiry 0 as
disabling the check and guards it with `data_expiry_time_us > 0`;
the C++ code lacks that guard.) -/
theorem getNewest_expiry_zero_always_none (rb : RingBuffer) (now : Nat)
    (h : rb.data_expiry_time_us = 0) :
    (rb.getNewestBufferNum now).1 = -1 := by
  rcases hscan : newestScan rb.timestamps with ⟨tbuf, o⟩
  cases o with
  | none => simp [RingBuffer.getNewestBufferNum, hscan]
  | some k => simp [RingBuffer.getNewestBufferNum, hscan, h]

/-- Witness for C3 at the failing input: one slot with the valid timestamp 5,
clock at 10, expiry set to 0 — the slot is fresh, yet the scan reports no
usable slot. -/
theorem getNewest_expiry_zero_always_none_witness :
    (RingBuffer.getNewestBufferNum 10 ⟨[5], 0, 0⟩).1 = -1 :=
  getNewest_expiry_zero_always_none ⟨[5], 0, 0⟩ 10 rfl

/-- C7. Whenever `getNewestBufferNum` returns a non-negative index, the
timestamp stored at that index is valid: strictly between 0 and
`UINT64_MAX`. -/
theorem getNewest_valid_timestamp (rb : RingBuffer) (now : Nat)
    (h : 0 ≤ (rb.getNewestBufferNum now).1) :
    (rb.getNewestBufferNum now).1.toNat < rb.timestamps.length ∧
    0 < rb.timestamps.getD (rb.getNewestBufferNum now).1.toNat 0 ∧
    rb.timestamps.getD (rb.getNewestBufferNum now).1.toNat 0 ≠ U64MAX := by
  rcases newestLoop_cases rb.timestamps 0 (0, none) with heq | ⟨j, hj, heq, hvalid, hpos⟩
  · have hres : (rb.getNewestBufferNum now).1 = -1 := by
      simp only [RingBuffer.getNewestBufferNum, newestScan, heq]
    rw [hres] at h
    norm_num at h
  · by_cases hfresh : usub64 now (rb.timestamps.getD j 0) < rb.data_expiry_time_us
    · have hres : (rb.getNewestBufferNum now).1 = ((0 + j : Nat) : Int) := by
        simp only [RingBuffer.getNewestBufferNum, newestScan, heq, if_pos hfresh]
      rw [hres]
      have htn : ((0 + j : Nat) : Int).toNat = j := by simp
      rw [htn]
      exact ⟨hj, hpos, hvalid⟩
    · have hres : (rb.getNewestBufferNum now).1 = (-1) := by
        simp only [RingBuffer.getNewestBufferNum, newestScan, heq, if_neg hfresh]
      rw [hres] at h
      norm_num at h

/-- Witness for C7 at a one-slot buffer holding the valid timestamp 5. -/
theorem getNewest_valid_timestamp_witness :
    0 < ([5] : List Nat).getD
        (RingBuffer.getNewestBufferNum 10 ⟨[5], 0, 2000000⟩).1.toNat 0 :=
  (getNewest_valid_timestamp ⟨[5], 0, 2000000⟩ 10 (by decide)).2.1

/-- C9. `allocateBuffer` refuses every out-of-range index without touching any
slot, and it can succeed only on an in-range slot whose timestamp is not
already `UINT64_MAX`; on success that slot's timestamp becomes `UINT64_MAX`
and every other slot is unchanged. -/
theorem allocateBuffer_spec (rb : RingBuffer) (i : Int) :
    ((i < 0 ∨ (rb.timestamps.length : Int) ≤ i) → rb.allocateBuffer i = (false, rb)) ∧
    ((rb.allocateBuffer i).1 = true →
      0 ≤ i ∧ i < (rb.timestamps.length : Int) ∧
      rb.timestamps.getD i.toNat 0 ≠ U64MAX ∧
      (rb.allocateBuffer i).2.timestamps.getD i.toNat 0 = U64MAX ∧
      ∀ k, k ≠ i.toNat →
        (rb.allocateBuffer i).2.timestamps.getD k 0 = rb.timestamps.getD k 0) := by
  constructor
  · intro hout
    simp [RingBuffer.allocateBuffer, hout]
  · intro hsucc
    by_cases hout : i < 0 ∨ (rb.timestamps.length : Int) ≤ i
    · rw [(by simp [RingBuffer.allocateBuffer, hout] :
        rb.allocateBuffer i = (false, rb))] at hsucc
      exact absurd hsucc (by simp)
    · rw [not_or] at hout
      obtain ⟨h1, h2⟩ := hout
      have h0 : 0 ≤ i := le_of_not_lt h1
      have hlen : i < (rb.timestamps.length : Int) := not_le.mp h2
      have hlenn : i.toNat < rb.timestamps.length := by omega
      by_cases hmax : rb.timestamps.getD i.toNat 0 = U64MAX
      · rw [(by
          rw [RingBuffer.allocateBuffer, if_neg (by rw [not_or]; exact ⟨h1, h2⟩),
            if_pos hmax] :
          rb.allocateBuffer i = (false, rb))] at hsucc
        exact absurd hsucc (by simp)
      · have hstep : rb.allocateBuffer i
            = (true, { rb with timestamps := rb.timestamps.set i.toNat U64MAX }) := by
          rw [RingBuffer.allocateBuffer, if_neg (by rw [not_or]; exact ⟨h1, h2⟩),
            if_neg hmax]
        refine ⟨h0, hlen, hmax, ?_, ?_⟩
        · rw [hstep]
          exact getD_set_self rb.timestamps i.toNat U64MAX hlenn
        · intro k hk
          rw [hstep]
          exact getD_set_ne rb.timestamps i.toNat k U64MAX hk

/-- Witness for C9: index 5 is out of range for a two-slot buffer; and slot 0
of `[5, 7]` is allocatable, becoming `UINT64_MAX`. -/
theorem allocateBuffer_spec_witness :
    RingBuffer.allocateBuffer ⟨[5, 7], 0, 2000000⟩ 5 = (false, ⟨[5, 7], 0, 2000000⟩) ∧
    (RingBuffer.allocateBuffer ⟨[5, 7], 0, 2000000⟩ 0).2.timestamps.getD 0 0 = U64MAX := by
  constructor
  · exact (allocateBuffer_spec ⟨[5, 7], 0, 2000000⟩ 5).1 (Or.inr (by norm_num))
  · exact ((allocateBuffer_spec ⟨[5, 7], 0, 2000000⟩ 0).2 (by decide)).2.2.2.1

/-- C10. The staleness cutoff defaults to 2,000,000 microseconds: a freshly
constructed `RingBuffer` view and a freshly constructed `Subscriber` both
carry `data_expiry_time_us = 2000000`, and `getNewestBufferNum` on a fresh
view applies exactly that cutoff (age 1,999,999 is accepted; age 2,000,000 is
rejected). -/
theorem default_expiry_two_seconds :
    (∀ ts : List Nat, (RingBuffer.create ts).data_expiry_time_us = 2000000) ∧
    mkSubscriber.data_expiry_time_us = 2000000 ∧
    (RingBuffer.getNewestBufferNum 2000004 (RingBuffer.create [5])).1 = 0 ∧
    (RingBuffer.getNewestBufferNum 2000005 (RingBuffer.create [5])).1 = -1 :=
  ⟨fun _ => rfl, rfl, by decide, by decide⟩

/-- C2, counterexample. Constructing a `Publisher<std::vector<T>>` (default
three buffers) on a fresh segment marks the segment initialized while storing
`element_size = 0`: the member `vector_size` is value-initialized to 0 and is
what the constructor hands to `RingBuffer` as the element size. -/
theorem init_flag_element_size_counterexample :
    (runPubOps ⟨0, 0, 0⟩ [PubOp.vec 3]).init_flag = 1 ∧
    ¬ 0 < (runPubOps ⟨0, 0, 0⟩ [PubOp.vec 3]).element_size := by
  decide

/-- C2, amended. After any sequence of publisher-side constructions,
`init_flag == 1` still implies `slot_count > 0`; and `element_size > 0`
additionally holds provided every construction in the sequence is a
fixed-size `Publisher<T>` (whose stored element size `sizeof(T)` is
positive) — a `Publisher<std::vector<T>>` construction instead publishes
`element_size = 0` until a nonempty vector is published. -/
theorem init_flag_header_invariant (ops : List PubOp) (hdr : SegHeader)
    (hb : hdr.init_flag = 1 → 0 < hdr.buf_num)
    (he : hdr.init_flag = 1 → 0 < hdr.element_size) :
    ((runPubOps hdr ops).init_flag = 1 → 0 < (runPubOps hdr ops).buf_num) ∧
    ((∀ op ∈ ops, op.writesPosElemSize) →
      (runPubOps hdr ops).init_flag = 1 → 0 < (runPubOps hdr ops).element_size) :=
  ⟨runPubOps_buf_pos ops hdr hb, fun hall => runPubOps_elem_pos ops hdr hall he⟩

/-- Witness for C2's amended theorem: one fixed-size publisher construction
(`sizeof(T) = 4`, three buffers) on a fresh segment yields a header with both
fields positive. -/
theorem init_flag_header_invariant_witness :
    0 < (runPubOps ⟨0, 0, 0⟩ [PubOp.fixed 4 3]).buf_num ∧
    0 < (runPubOps ⟨0, 0, 0⟩ [PubOp.fixed 4 3]).element_size := by
  have h := init_flag_header_invariant [PubOp.fixed 4 3] ⟨0, 0, 0⟩
    (by decide) (by decide)
  exact ⟨h.1 (by decide),
    h.2 (fun op hop => by
      rcases List.mem_singleton.mp hop with rfl
      show (0 : Nat) < 4
      norm_num) (by decide)⟩

/-- C4, counterexample. A call can observe a response-timestamp advance that
was produced for an *earlier* request: with a response slot already holding
`(ts 5, value 111)` unobserved by the client (baseline 3), `call(2, ...)`
with handler `id` returns `true` immediately and stores 111, not
`id 2 = 2`. Such a state arises when a previous call times out and the server
answers it afterwards. -/
theorem call_stale_response_counterexample :
    (clientCall id 2 10 [] (⟨0, 0, 5, 111⟩ : SvcShared Nat Nat) ⟨0⟩ ⟨3⟩ 0).1 = true ∧
    (clientCall id 2 10 [] (⟨0, 0, 5, 111⟩ : SvcShared Nat Nat) ⟨0⟩ ⟨3⟩ 0).2.1 = 111 ∧
    (111 : Nat) ≠ id 2 := by
  decide

/-- C4, amended. Provided no response is pending unobserved when the call
starts (the shared response timestamp does not already exceed the client's
recorded baseline), a call that observes the response timestamp advance past
the baseline before the deadline stores `f r` into `*response` and returns
true; if the deadline elapses without such an advance, the call returns false
and `*response` keeps its prior value. -/
theorem call_returns_handler_result {Req Res : Type} (f : Req → Res) (r : Req)
    (now : Nat) (times : List Nat) (sh : SvcShared Req Res) (sv : ServerLocal)
    (cl : ClientLocal) (out : Res)
    (hbase : sh.response_timestamp_usec ≤ cl.current_response_timestamp_usec) :
    ((clientCall f r now times sh sv cl out).1 = true →
      (clientCall f r now times sh sv cl out).2.1 = f r) ∧
    ((clientCall f r now times sh sv cl out).1 = false →
      (clientCall f r now times sh sv cl out).2.1 = out) := by
  have hinv := runServer_inv f times (writeRequest r now sh) sv
  by_cases hobs : cl.current_response_timestamp_usec
      < (runServer f times (writeRequest r now sh, sv)).1.response_timestamp_usec
  · have hres : clientCall f r now times sh sv cl out
        = (true, (runServer f times (writeRequest r now sh, sv)).1.response_val,
           ⟨(runServer f times (writeRequest r now sh, sv)).1.response_timestamp_usec⟩) := by
      simp only [clientCall, observeResponse, if_pos hobs]
    constructor
    · intro _
      rw [hres]
      rcases hinv.2.2 with ⟨hts, _⟩ | hval
      · exfalso
        have hsame : (runServer f times (writeRequest r now sh, sv)).1.response_timestamp_usec
            = sh.response_timestamp_usec := hts
        omega
      · simpa using hval
    · intro hfalse
      rw [hres] at hfalse
      exact absurd hfalse (by simp)
  · have hres : clientCall f r now times sh sv cl out = (false, out, cl) := by
      simp only [clientCall, observeResponse, if_neg hobs]
    constructor
    · intro htrue
      rw [hres] at htrue
      exact absurd htrue (by simp)
    · intro _
      rw [hres]

/-- Witness for C4's amended theorem: a fresh service segment, a request
written at time 5, the server waking at time 7 — the call succeeds with
`id 2`. -/
theorem call_returns_handler_result_witness :
    (clientCall id 2 5 [7] (⟨0, 0, 0, 0⟩ : SvcShared Nat Nat) ⟨0⟩ ⟨0⟩ 9).2.1 = id 2 :=
  (call_returns_handler_result id 2 5 [7] ⟨0, 0, 0, 0⟩ ⟨0⟩ ⟨0⟩ 9 (by decide)).1 (by decide)

/-- C5. `isPreemptRequested` is true exactly when the stored cancel timestamp
is strictly greater than the current goal's start timestamp; and a
`cancelGoal` stamped at `tc` followed by an `acceptNewGoal` stamped at
`ta ≥ tc` (the monotone clock read later) leaves the predicate false, so a
cancel issued before the goal was accepted does not preempt it. -/
theorem preempt_iff_cancel_after_start {G : Type} (s : ActionState G)
    (tc ta : Nat) (h : tc ≤ ta) :
    (s.isPreemptRequested = true ↔ s.cancel_timestamp_us > s.start_timestamp_us) ∧
    ((s.cancelGoal tc).acceptNewGoal ta).2.isPreemptRequested = false := by
  constructor
  · by_cases hlt : s.start_timestamp_us < s.cancel_timestamp_us
    · simp [ActionState.isPreemptRequested, hlt]
    · simp [ActionState.isPreemptRequested, hlt]
  · simp only [ActionState.isPreemptRequested, ActionState.acceptNewGoal,
      ActionState.cancelGoal]
    rw [if_neg (by omega)]

/-- Witness for C5 at a concrete action state: cancel at time 5, accept at
time 7 — no preemption is reported for the newly accepted goal. -/
theorem preempt_iff_cancel_after_start_witness :
    ((ActionState.acceptNewGoal 7
        (ActionState.cancelGoal 5
          (⟨0, 0, 0, .SUCCEEDED, (0 : Nat), 0, 0⟩ : ActionState Nat))).2).isPreemptRequested
      = false :=
  (preempt_iff_cancel_after_start
    (⟨0, 0, 0, .SUCCEEDED, (0 : Nat), 0, 0⟩ : ActionState Nat) 5 7 (by norm_num)).2

/-- C6, counterexample. A subscriber that is attached but has never completed
a successful read (its `current_reading_buffer` still 0) fails — here all
timestamps are 0 — and returns the *current contents of slot 0* (42), not a
default-constructed payload as the claim prescribes for a subscriber that has
never successfully attached and read. This state is reachable: a publisher
writes 42 into slot 0, the data expires, then the subscriber's first
`subscribe` runs. -/
theorem subscribe_never_read_counterexample :
    subscribe (⟨[0, 0, 0], [42, 0, 0]⟩ : Segment Nat) ⟨true, 0, 0, 2000000⟩ true true 0
      = (42, false, ⟨true, 0, 0, 2000000⟩) ∧ (42 : Nat) ≠ default := by
  decide

/-- C6, amended. A failed `subscribe` sets `*is_success` to false and
returns: a default-constructed payload when the segment cannot be connected
or does not initialize within the wait; otherwise (attached, but no valid
slot or the newest slot expired) the current payload of the slot indexed by
`current_reading_buffer` — the slot of the last successful read, or slot 0 if
no read has ever succeeded. -/
theorem subscribe_failure_returns_last_slot (α : Type) [Inhabited α]
    (seg : Segment α) (sub : SubscriberLocal) (cOk iOk : Bool) (now : Nat) :
    (sub.attached = false → (cOk = false ∨ iOk = false) →
      subscribe seg sub cOk iOk now = (default, false, sub)) ∧
    (sub.attached = true →
      (subscribe seg sub cOk iOk now).2.1 = false →
      (subscribe seg sub cOk iOk now).1
        = seg.data.getD sub.current_reading_buffer default) := by
  constructor
  · intro hatt hfail
    by_cases hc : cOk = false
    · simp [subscribe, hatt, hc]
    · rcases hfail with hc2 | hi
      · exact absurd hc2 hc
      · simp [subscribe, hatt, hc, hi]
  · intro hatt
    have hread : subscribe seg sub cOk iOk now = subscribeRead seg sub now := by
      simp [subscribe, hatt]
    rw [hread]
    rcases hidx : (RingBuffer.mk seg.timestamps sub.rb_timestamp_us
        sub.data_expiry_time_us).getNewestBufferNum now with ⟨idx, rb2⟩
    by_cases hneg : idx < 0
    · intro _
      simp [subscribeRead, hidx, hneg]
    · intro hfalse
      have htrue : (subscribeRead seg sub now).2.1 = true := by
        simp [subscribeRead, hidx, hneg]
      exact absurd (htrue.symm.trans hfalse) (by simp)

/-- Witness for C6's amended theorem: a failed attach yields the default
payload; an attached subscriber with no valid slot yields slot 0's payload. -/
theorem subscribe_failure_returns_last_slot_witness :
    subscribe (⟨[0], [7]⟩ : Segment Nat) mkSubscriber false true 0
      = (default, false, mkSubscriber) ∧
    (subscribe (⟨[0], [7]⟩ : Segment Nat) ⟨true, 0, 0, 2000000⟩ true true 0).1 = 7 := by
  refine ⟨(subscribe_failure_returns_last_slot Nat ⟨[0], [7]⟩ mkSubscriber
      false true 0).1 rfl (Or.inl rfl), ?_⟩
  have h := (subscribe_failure_returns_last_slot Nat ⟨[0], [7]⟩
    ⟨true, 0, 0, 2000000⟩ true true 0).2 rfl (by decide)
  simpa using h

/-- C8. The shared-memory object name used by `connect` (and the `isExists`
probe, which builds the same string) and by `disconnectMemory` equals the
spec's canonicalization: strip a single leading `'/'`, replace every
remaining `'/'` with `'_'`, prepend `"/shm_"`; in particular
`"/robot/arm/pose"` canonicalizes to `"/shm_robot_arm_pose"`. -/
theorem object_name_canonicalization (name : String) :
    connectObjectName name = specCanonicalName name ∧
    disconnectMemoryObjectName name = specCanonicalName name ∧
    specCanonicalName "/robot/arm/pose" = "/shm_robot_arm_pose" ∧
    specCanonicalName "topic" = "/shm_topic" ∧
    connectObjectName "//a" = "/shm__a" :=
  ⟨rfl, rfl, by decide, by decide, by decide⟩

end Shm
